import Mathlib

/-!
Verification of the Mermaid Chart Studio editor session (src/app/page.tsx).

The component is a single-page React editor.  This file gives a shallow
embedding of its original logic:

* the debounced render pipeline (lines 163-188): a `useEffect` keyed on
  `[code, mermaidTheme, renderDiagram]` whose cleanup clears the previous
  500ms timeout and arms a new one, and an async `renderDiagram` callback
  that guards on the render target / trimmed code, clears the error, calls
  the external renderer with a fresh counter id, and writes the resulting
  artifact or error message;
* the persistence adapter (lines 190-200, 336-350): load at mount from the
  `mermaid-diagrams` local-storage slot through the external JSON library,
  and full-overwrite writes after each save/delete;
* the viewport controller (lines 203-258, 356-357): zoom step/clamp and the
  fullscreen flag that is only written by the fullscreen-change listener;
* the layout splitter (lines 266-291): pointer-driven clamped split width.

Host/runtime facts baked into the embedding (React and browser contracts,
recorded here because the source relies on them):

* the diagram `<div ref={diagramRef}>` is rendered only on the `error === ''`
  branch (lines 611-623), so after each commit `diagramRef.current` is null
  exactly when a non-empty error is displayed;
* `setTimeout` callbacks and promise continuations run as macro/micro tasks
  after the state update that scheduled them has committed;
* timers are single-slot per effect: the cleanup `clearTimeout` cancels the
  previously armed callback, so a superseded schedule never fires.

External collaborators (the mermaid renderer, `JSON.stringify`/`JSON.parse`,
`localStorage`, `prompt`/`confirm`, the fullscreen API) are modelled at their
documented interfaces; the renderer's outcomes are environment-chosen.
-/

/-- The five mermaid theme identifiers (line 81 of page.tsx). -/
inductive MermaidTheme where
  | default
  | dark
  | forest
  | neutral
  | base
deriving DecidableEq, Repr

/-- A saved diagram `{ name, code }` (line 89 of page.tsx). -/
structure SavedDiagram where
  name : String
  code : String
deriving DecidableEq, Repr

/-- Model of the JavaScript `String.prototype.trim` used by the guard
`!code.trim()` (line 164): drop whitespace from both ends. -/
def jsTrim (s : String) : String :=
  String.mk (((s.data.dropWhile Char.isWhitespace).reverse.dropWhile
    Char.isWhitespace).reverse)

/-- The `templates.flowchart` string that seeds the editor (lines 28-33). -/
def flowchartTemplate : String :=
  "graph TD\n    A[Start] --> B\x7bDecision\x7d\n    B -->|Yes| C[Process 1]\n    B -->|No| D[Process 2]\n    C --> E[End]\n    D --> E"

/-- Outcome of one awaited `mermaid.render` call: the external renderer
either resolves with an svg artifact or rejects with an error message. -/
inductive RenderOutcome where
  | success (svg : String)
  | failure (msg : String)
deriving DecidableEq, Repr

/-- State of the editor session relevant to the render pipeline.

`timer` is the single armed debounce timeout together with the code the
`renderDiagram` closure captured and the theme the initialize effect will
have installed when it fires; `inFlight` lists the started-but-unresolved
`mermaid.render` calls `(id, code, theme)`; `invocations` logs every
execution of the scheduled `renderDiagram` callback (guard-blocked or not),
and `displayed` is the innerHTML of the diagram div (`none` while the div is
unmounted or still empty). -/
structure SessionState where
  code : String
  mermaidTheme : MermaidTheme
  timer : Option (String × MermaidTheme)
  error : String
  displayed : Option String
  inFlight : List (Nat × String × MermaidTheme)
  idCounter : Nat
  invocations : List (String × MermaidTheme)
deriving DecidableEq, Repr

/-- Initial session state (lines 84-100): flowchart template, default theme,
no error, nothing rendered yet; the mount effect arms the first timer, which
we leave to the event steps. -/
def initialSession : SessionState :=
  { code := flowchartTemplate
    mermaidTheme := MermaidTheme.default
    timer := none
    error := ""
    displayed := none
    inFlight := []
    idCounter := 0
    invocations := [] }

/-- A keystroke in the textarea (`setCode`, line 569).  The debounce effect
(lines 183-188) re-runs: its cleanup clears the previously armed timeout and
a new 500ms timeout is armed whose callback closes over the new code and
will run under the now-current theme. -/
def setCode (s : SessionState) (t : String) : SessionState :=
  { s with code := t, timer := some (t, s.mermaidTheme) }

/-- A theme selection (`setMermaidTheme`, line 431).  The initialize effect
re-configures the renderer and the debounce effect re-arms the timeout with
the current code under the new theme (lines 119-161, 183-188). -/
def selectTheme (s : SessionState) (th : MermaidTheme) : SessionState :=
  { s with mermaidTheme := th, timer := some (s.code, th) }

/-- The armed debounce timeout fires and runs `renderDiagram` (lines 163-181).
Guards (line 164): `diagramRef.current` is null exactly when a non-empty
error is displayed (the diagram div is unmounted on the error branch,
lines 611-623), and `!code.trim()` blocks whitespace-only code; `mounted` is
true once the timer can fire.  Past the guards the callback clears the error
(already clear, since the guard passed), takes a fresh counter id and starts
the awaited `mermaid.render` call. -/
def fireTimer (s : SessionState) : SessionState :=
  match s.timer with
  | none => s
  | some (c, th) =>
    let s0 := { s with timer := none, invocations := s.invocations ++ [(c, th)] }
    if s.error ≠ "" then s0
    else if jsTrim c = "" then s0
    else
      { s0 with
        error := ""
        inFlight := s.inFlight ++ [(s.idCounter, c, th)]
        idCounter := s.idCounter + 1 }

/-- Message of the TypeError thrown when the resolved render continuation
assigns `diagramRef.current.innerHTML` while the ref is null. -/
def nullTargetMessage : String := "Cannot set properties of null"

/-- Apply the outcome of a resolved `mermaid.render` call (lines 169-180).
On success the svg is written into the diagram div — unless the error branch
is displayed (ref null), in which case the assignment throws and the catch
stores the TypeError message.  On failure the catch stores
`err?.message || 'Invalid Mermaid syntax'` and the error branch replaces
(unmounts) the diagram div. -/
def applyOutcome (s : SessionState) (o : RenderOutcome) : SessionState :=
  match o with
  | RenderOutcome.success svg =>
    if s.error ≠ "" then { s with error := nullTargetMessage, displayed := none }
    else { s with displayed := some svg }
  | RenderOutcome.failure msg =>
    { s with
      error := if msg = "" then "Invalid Mermaid syntax" else msg
      displayed := none }

/-- Delivery of the awaited result of in-flight render `rid`; meaningful when
`rid` is in `s.inFlight` (theorems carry that hypothesis).  The render leaves
the in-flight set and its outcome is applied. -/
def completeRender (s : SessionState) (rid : Nat) (o : RenderOutcome) :
    SessionState :=
  applyOutcome { s with inFlight := s.inFlight.filter (fun e => e.1 ≠ rid) } o

/-- An edit event: a keystroke or a theme selection. -/
inductive EditEvent where
  | editCode (t : String)
  | selectTheme (th : MermaidTheme)
deriving DecidableEq, Repr

/-- Apply one edit event. -/
def applyEdit (s : SessionState) : EditEvent → SessionState
  | EditEvent.editCode t => setCode s t
  | EditEvent.selectTheme th => selectTheme s th

/-- Apply a burst of edit events, each arriving before the pending timeout
fires (faster than the 500ms debounce window). -/
def applyEdits (s : SessionState) (es : List EditEvent) : SessionState :=
  es.foldl applyEdit s

/-- The last-submitted source text after a burst of edits, starting from
text `c`. -/
def lastCodeAfter (c : String) : List EditEvent → String
  | [] => c
  | EditEvent.editCode t :: es => lastCodeAfter t es
  | EditEvent.selectTheme _ :: es => lastCodeAfter c es

/-- The last-selected theme after a burst of edits, starting from theme
`th`. -/
def lastThemeAfter (th : MermaidTheme) : List EditEvent → MermaidTheme
  | [] => th
  | EditEvent.editCode _ :: es => lastThemeAfter th es
  | EditEvent.selectTheme t :: es => lastThemeAfter t es

/-! ### Viewport controller: zoom and fullscreen (lines 203-258, 356-357) -/

/-- Viewport state: zoom percentage and the fullscreen flag (lines 86-88). -/
structure ViewportState where
  zoom : Int
  isFullscreen : Bool
deriving DecidableEq, Repr

/-- `handleZoomIn` (line 356): `setZoom(prev => Math.min(prev + 10, 200))`. -/
def handleZoomIn (s : ViewportState) : ViewportState :=
  { s with zoom := min (s.zoom + 10) 200 }

/-- `handleZoomOut` (line 357): `setZoom(prev => Math.max(prev - 10, 50))`. -/
def handleZoomOut (s : ViewportState) : ViewportState :=
  { s with zoom := max (s.zoom - 10) 50 }

/-- `handleZoomIn` applied `n` times. -/
def repeatZoomIn : Nat → ViewportState → ViewportState
  | 0, s => s
  | n + 1, s => repeatZoomIn n (handleZoomIn s)

/-- `handleZoomOut` applied `n` times. -/
def repeatZoomOut : Nat → ViewportState → ViewportState
  | 0, s => s
  | n + 1, s => repeatZoomOut n (handleZoomOut s)

/-- A request issued to the host fullscreen API. -/
inductive FsRequest where
  | enter
  | exitFs
deriving DecidableEq, Repr

/-- `toggleFullscreen` (lines 203-233): reads `isFullscreen` to choose between
`requestFullscreen` and `exitFullscreen` on the host (errors caught, line
230-232).  It never calls `setIsFullscreen`: the component state is returned
unchanged alongside the host request. -/
def toggleFullscreen (s : ViewportState) : ViewportState × FsRequest :=
  (s, if s.isFullscreen then FsRequest.exitFs else FsRequest.enter)

/-- `toggleFullscreen` state after a whole burst of `n` toggle requests with
no intervening fullscreen-change notification. -/
def repeatToggle : Nat → ViewportState → ViewportState
  | 0, s => s
  | n + 1, s => repeatToggle n (toggleFullscreen s).1

/-- `handleFullscreenChange` (lines 237-245): the host's fullscreen-change
notification sets the flag from whether the document currently has a
fullscreen element. -/
def handleFullscreenChange (s : ViewportState) (hostHasFullscreenElement : Bool) :
    ViewportState :=
  { s with isFullscreen := hostHasFullscreenElement }

/-! ### Layout splitter (lines 261-291) -/

/-- Split state: editor width percentage and the drag-in-progress flag
(lines 92-93).  The width is a JavaScript number; pointer coordinates and the
container box are modelled over the rationals. -/
structure SplitState where
  editorWidth : ℚ
  isResizing : Bool
deriving DecidableEq, Repr

/-- `handleMouseMove` (lines 267-276): ignored unless a resize is in progress
(and the container ref is mounted, which it is whenever the handler is
installed); otherwise computes
`newWidth = (clientX - containerLeft) / containerWidth * 100`, clamps it with
`Math.min(Math.max(newWidth, 20), 80)` and stores it synchronously. -/
def handleMouseMove (s : SplitState) (clientX containerLeft containerWidth : ℚ) :
    SplitState :=
  if s.isResizing then
    { s with
      editorWidth :=
        min (max ((clientX - containerLeft) / containerWidth * 100) 20) 80 }
  else s

/-! ### Persistence adapter (lines 190-200, 336-350)

`localStorage` holds an optional string blob under the `mermaid-diagrams`
key.  `JSON.stringify` / `JSON.parse` are the external JSON library; they are
modelled concretely below: the serializer emits exactly the text
`JSON.stringify` produces for an array of `{name, code}` objects (no
whitespace, insertion-ordered keys, standard short escapes), and the
parser is a model of `JSON.parse` — it accepts any JSON value and reports
syntax errors as `none` (which the caller's `catch` turns into "keep the
current list"). -/

/-- Left and right curly brace characters. -/
def lbrace : Char := Char.ofNat 123

/-- Right curly brace. -/
def rbrace : Char := Char.ofNat 125

/-- JSON string-character escaping as produced by `JSON.stringify`: quote,
backslash and the common control characters get two-character escapes; other
characters pass through.  (`JSON.stringify` would escape the remaining
control characters as `\u00XX`; the saved data never contains them and the
model treats them transparently on both sides.) -/
def escapeChar (c : Char) : List Char :=
  if c = '"' then ['\\', '"']
  else if c = '\\' then ['\\', '\\']
  else if c = '\n' then ['\\', 'n']
  else if c = '\t' then ['\\', 't']
  else if c = '\r' then ['\\', 'r']
  else [c]

/-- Escape a whole character list. -/
def escapeList : List Char → List Char
  | [] => []
  | c :: cs => escapeChar c ++ escapeList cs

/-- A JSON string literal for `s`: quote, escaped content, quote. -/
def quoteChars (s : String) : List Char :=
  '"' :: (escapeList s.data ++ ['"'])

/-- The serialized field segment `"name":…,"code":…}` of one saved diagram
(everything after the opening brace, closing brace included). -/
def diagramFieldsChars (d : SavedDiagram) : List Char :=
  quoteChars "name" ++ (':' :: (quoteChars d.name ++
    (',' :: (quoteChars "code" ++ (':' :: (quoteChars d.code ++ [rbrace]))))))

/-- The serialized object `{"name":…,"code":…}` for one saved diagram,
matching `JSON.stringify` on the object literal `{ name, code }`
(insertion-ordered keys, line 340). -/
def encodeDiagramChars (d : SavedDiagram) : List Char :=
  lbrace :: diagramFieldsChars d

/-- Comma-separated serialized array elements. -/
def encodeItemsChars : List SavedDiagram → List Char
  | [] => []
  | [d] => encodeDiagramChars d
  | d :: ds => encodeDiagramChars d ++ (',' :: encodeItemsChars ds)

/-- `JSON.stringify` on an array of `{name, code}` objects. -/
def jsonStringifyDiagrams (l : List SavedDiagram) : String :=
  String.mk ('[' :: (encodeItemsChars l ++ [']']))

/-- JSON values, as returned by `JSON.parse` (numbers kept as their source
lexeme, which the claims never inspect). -/
inductive Json where
  | null
  | bool (b : Bool)
  | num (lexeme : String)
  | str (s : String)
  | arr (items : List Json)
  | obj (fields : List (String × Json))
deriving Repr, BEq

/-- Whitespace characters skipped by the JSON parser. -/
def isWsChar (c : Char) : Bool :=
  c = ' ' || c = '\n' || c = '\t' || c = '\r'

/-- Skip leading JSON whitespace. -/
def skipWs : List Char → List Char
  | [] => []
  | c :: cs => if isWsChar c then skipWs cs else c :: cs

/-- Decode one two-character escape. -/
def unescapeChar (e : Char) : Option Char :=
  if e = '"' then some '"'
  else if e = '\\' then some '\\'
  else if e = '/' then some '/'
  else if e = 'n' then some '\n'
  else if e = 't' then some '\t'
  else if e = 'r' then some '\r'
  else if e = 'b' then some (Char.ofNat 8)
  else if e = 'f' then some (Char.ofNat 12)
  else none

/-- Parse the body of a JSON string literal (after the opening quote),
returning the decoded content and the input past the closing quote. -/
def parseStrChars : List Char → Option (List Char × List Char)
  | [] => none
  | c :: cs =>
    if c = '"' then some ([], cs)
    else if c = '\\' then
      match cs with
      | [] => none
      | e :: cs2 =>
        match unescapeChar e with
        | some d =>
          match parseStrChars cs2 with
          | some (sc, r) => some (d :: sc, r)
          | none => none
        | none => none
    else
      match parseStrChars cs with
      | some (sc, r) => some (c :: sc, r)
      | none => none

/-- Characters accepted inside a number token. -/
def isNumChar (c : Char) : Bool :=
  c.isDigit || c = '-' || c = '+' || c = '.' || c = 'e' || c = 'E'

mutual

/-- Parse one JSON value (fuel-bounded recursive descent). -/
def parseVal : Nat → List Char → Option (Json × List Char)
  | 0, _ => none
  | fuel + 1, cs =>
    match skipWs cs with
    | [] => none
    | c :: rest =>
      if c = '"' then
        match parseStrChars rest with
        | some (sc, r) => some (Json.str (String.mk sc), r)
        | none => none
      else if c = '[' then
        match skipWs rest with
        | [] => none
        | d :: r =>
          if d = ']' then some (Json.arr [], r)
          else
            match parseItems fuel (d :: r) with
            | some (js, r2) => some (Json.arr js, r2)
            | none => none
      else if c = lbrace then
        match skipWs rest with
        | [] => none
        | d :: r =>
          if d = rbrace then some (Json.obj [], r)
          else
            match parseFields fuel (d :: r) with
            | some (fs, r2) => some (Json.obj fs, r2)
            | none => none
      else if c = 't' then
        match rest with
        | 'r' :: 'u' :: 'e' :: r => some (Json.bool true, r)
        | _ => none
      else if c = 'f' then
        match rest with
        | 'a' :: 'l' :: 's' :: 'e' :: r => some (Json.bool false, r)
        | _ => none
      else if c = 'n' then
        match rest with
        | 'u' :: 'l' :: 'l' :: r => some (Json.null, r)
        | _ => none
      else if c.isDigit || c = '-' then
        some (Json.num (String.mk ((c :: rest).takeWhile isNumChar)),
          (c :: rest).dropWhile isNumChar)
      else none

/-- Parse the non-empty element list of a JSON array, consuming the closing
bracket. -/
def parseItems : Nat → List Char → Option (List Json × List Char)
  | 0, _ => none
  | fuel + 1, cs =>
    match parseVal fuel cs with
    | none => none
    | some (j, rest) =>
      match skipWs rest with
      | [] => none
      | d :: r =>
        if d = ',' then
          match parseItems fuel r with
          | some (js, r2) => some (j :: js, r2)
          | none => none
        else if d = ']' then some ([j], r)
        else none

/-- Parse the non-empty field list of a JSON object, consuming the closing
brace. -/
def parseFields : Nat → List Char → Option (List (String × Json) × List Char)
  | 0, _ => none
  | fuel + 1, cs =>
    match skipWs cs with
    | [] => none
    | c :: rest =>
      if c = '"' then
        match parseStrChars rest with
        | none => none
        | some (k, r1) =>
          match skipWs r1 with
          | [] => none
          | d :: r2 =>
            if d = ':' then
              match parseVal fuel r2 with
              | none => none
              | some (v, r3) =>
                match skipWs r3 with
                | [] => none
                | e :: r4 =>
                  if e = ',' then
                    match parseFields fuel r4 with
                    | some (fs, r5) => some ((String.mk k, v) :: fs, r5)
                    | none => none
                  else if e = rbrace then some ([(String.mk k, v)], r4)
                  else none
            else none
      else none

end

/-- Model of `JSON.parse`: parse one value surrounded by whitespace; `none`
models the thrown SyntaxError. -/
def jsonParse (s : String) : Option Json :=
  match parseVal (s.length + 1) s.data with
  | some (j, r) => if skipWs r = [] then some j else none
  | none => none

/-- The JSON value `JSON.stringify` serializes one saved diagram to. -/
def diagramJson (d : SavedDiagram) : Json :=
  Json.obj [("name", Json.str d.name), ("code", Json.str d.code)]

/-- The JSON value of a whole saved-diagrams array. -/
def diagramsJson (l : List SavedDiagram) : Json :=
  Json.arr (l.map diagramJson)

/-- Read one saved diagram back out of a JSON value (exact
`{"name":…,"code":…}` shape). -/
def decodeDiagram : Json → Option SavedDiagram
  | Json.obj [(k1, Json.str v1), (k2, Json.str v2)] =>
    if k1 = "name" ∧ k2 = "code" then some { name := v1, code := v2 } else none
  | _ => none

/-- Read a list of saved diagrams from a list of JSON values, failing if any
element has the wrong shape. -/
def decodeDiagramList : List Json → Option (List SavedDiagram)
  | [] => some []
  | j :: js =>
    match decodeDiagram j, decodeDiagramList js with
    | some d, some ds => some (d :: ds)
    | _, _ => none

/-- Read a saved-diagrams sequence back out of a JSON value. -/
def decodeDiagrams : Json → Option (List SavedDiagram)
  | Json.arr items => decodeDiagramList items
  | _ => none

/-- Deserialize a stored blob into a saved-diagrams sequence. -/
def deserializeDiagrams (s : String) : Option (List SavedDiagram) :=
  (jsonParse s).bind decodeDiagrams

/-- In-memory saved-diagrams list together with the `mermaid-diagrams`
local-storage slot. -/
structure SaveState where
  savedDiagrams : List SavedDiagram
  store : Option String
deriving Repr

/-- `saveDiagram` (lines 336-343): `prompt` yields `none` (cancel) or a
string; `if (!name) return` drops both cancel and the empty string; otherwise
the pair `{name, code}` is appended and the whole new list is written to the
store at once. -/
def saveDiagram (st : SaveState) (promptResult : Option String) (code : String) :
    SaveState :=
  match promptResult with
  | none => st
  | some name =>
    if name = "" then st
    else
      let newDiagrams := st.savedDiagrams ++ [{ name := name, code := code }]
      { savedDiagrams := newDiagrams
        store := some (jsonStringifyDiagrams newDiagrams) }

/-- `deleteDiagram` (lines 345-350): after the `confirm` dialog, the element
at `index` is dropped via `filter((_, i) => i !== index)` and the whole new
list is written to the store at once. -/
def deleteDiagram (st : SaveState) (confirmed : Bool) (index : Nat) : SaveState :=
  if confirmed then
    let newDiagrams :=
      (st.savedDiagrams.enum.filter (fun p => p.1 ≠ index)).map Prod.snd
    { savedDiagrams := newDiagrams
      store := some (jsonStringifyDiagrams newDiagrams) }
  else st

/-- The load effect (lines 190-200): read the slot; a missing or empty blob
is skipped (`if (saved)`), otherwise `JSON.parse` runs inside `try` and its
result — whatever JSON value it is — is stored as the saved-diagrams state
without any shape validation; a thrown SyntaxError is caught and the initial
`[]` kept.  The result is therefore an arbitrary `Json` value. -/
def loadSavedDiagrams (blob : Option String) : Json :=
  match blob with
  | none => Json.arr []
  | some s =>
    if s = "" then Json.arr []
    else
      match jsonParse s with
      | some j => j
      | none => Json.arr []

/-! ### Behavior of edit bursts and timer fire -/

/-- A single edit touches only code, theme and the armed timer. -/
theorem applyEdit_frame (s : SessionState) (e : EditEvent) :
    (applyEdit s e).invocations = s.invocations ∧
    (applyEdit s e).error = s.error ∧
    (applyEdit s e).displayed = s.displayed ∧
    (applyEdit s e).inFlight = s.inFlight ∧
    (applyEdit s e).idCounter = s.idCounter := by
  cases e <;> simp [applyEdit, setCode, selectTheme]

/-- A burst of edits runs no callback and starts no render: results,
in-flight renders and the id counter are untouched. -/
theorem applyEdits_frame (es : List EditEvent) (s : SessionState) :
    (applyEdits s es).invocations = s.invocations ∧
    (applyEdits s es).error = s.error ∧
    (applyEdits s es).displayed = s.displayed ∧
    (applyEdits s es).inFlight = s.inFlight ∧
    (applyEdits s es).idCounter = s.idCounter := by
  induction es generalizing s with
  | nil => simp [applyEdits]
  | cons e es ih =>
    have h1 := applyEdit_frame s e
    have h2 := ih (applyEdit s e)
    simp only [applyEdits, List.foldl_cons] at h2 ⊢
    exact ⟨h2.1.trans h1.1, h2.2.1.trans h1.2.1, h2.2.2.1.trans h1.2.2.1,
      h2.2.2.2.1.trans h1.2.2.2.1, h2.2.2.2.2.trans h1.2.2.2.2⟩

/-- After a burst of edits the current code and theme are the last-submitted
ones. -/
theorem applyEdits_code_theme (es : List EditEvent) (s : SessionState) :
    (applyEdits s es).code = lastCodeAfter s.code es ∧
    (applyEdits s es).mermaidTheme = lastThemeAfter s.mermaidTheme es := by
  induction es generalizing s with
  | nil => simp [applyEdits, lastCodeAfter, lastThemeAfter]
  | cons e es ih =>
    have h2 := ih (applyEdit s e)
    simp only [applyEdits, List.foldl_cons] at h2 ⊢
    cases e with
    | editCode t =>
      simpa [applyEdit, setCode, lastCodeAfter, lastThemeAfter] using h2
    | selectTheme th =>
      simpa [applyEdit, setCode, selectTheme, lastCodeAfter, lastThemeAfter]
        using h2

/-- After a non-empty burst of edits exactly one timeout is armed, carrying
the last-submitted code and theme: each edit cancelled and replaced the
previous schedule. -/
theorem applyEdits_timer (es : List EditEvent) (s : SessionState) (h : es ≠ []) :
    (applyEdits s es).timer =
      some (lastCodeAfter s.code es, lastThemeAfter s.mermaidTheme es) := by
  induction es generalizing s with
  | nil => exact absurd rfl h
  | cons e es ih =>
    cases es with
    | nil =>
      cases e <;>
        simp [applyEdits, applyEdit, setCode, selectTheme, lastCodeAfter,
          lastThemeAfter]
    | cons e2 es2 =>
      have h2 := ih (applyEdit s e) (by simp)
      simp only [applyEdits, List.foldl_cons] at h2 ⊢
      cases e with
      | editCode t =>
        simpa [applyEdit, setCode, lastCodeAfter, lastThemeAfter] using h2
      | selectTheme th =>
        simpa [applyEdit, setCode, selectTheme, lastCodeAfter, lastThemeAfter]
          using h2

/-- Firing the armed timeout runs its callback exactly once and disarms it,
whatever the guards decide. -/
theorem fireTimer_of_timer (s : SessionState) (c : String) (th : MermaidTheme)
    (ht : s.timer = some (c, th)) :
    (fireTimer s).invocations = s.invocations ++ [(c, th)] ∧
    (fireTimer s).timer = none := by
  simp only [fireTimer, ht]
  split
  · simp
  · split <;> simp

/-- When no error is displayed and the captured code is not whitespace-only,
the fired callback starts exactly one render with a fresh id. -/
theorem fireTimer_starts_render (s : SessionState) (c : String)
    (th : MermaidTheme) (ht : s.timer = some (c, th)) (herr : s.error = "")
    (hc : jsTrim c ≠ "") :
    fireTimer s =
      { s with
        timer := none
        invocations := s.invocations ++ [(c, th)]
        error := ""
        inFlight := s.inFlight ++ [(s.idCounter, c, th)]
        idCounter := s.idCounter + 1 } := by
  simp only [fireTimer, ht]
  rw [if_neg (by simp [herr]), if_neg hc]

/-- A string of whitespace characters trims to the empty string. -/
theorem jsTrim_all_ws (c : String) (hw : ∀ ch ∈ c.data, ch.isWhitespace) :
    jsTrim c = "" := by
  have h1 : c.data.dropWhile Char.isWhitespace = [] := by
    simp [List.dropWhile_eq_nil_iff]
    exact hw
  simp [jsTrim, h1]

/-! ### Serialization round-trip: `jsonParse` inverts `jsonStringifyDiagrams` -/

/-- A string is its character list repackaged. -/
theorem strMk_data (s : String) : String.mk s.data = s := rfl

/-- The string-literal body parser inverts the escaper. -/
theorem parseStr_escape (s : List Char) (rest : List Char) :
    parseStrChars (escapeList s ++ ('"' :: rest)) = some (s, rest) := by
  induction s with
  | nil =>
    rw [escapeList, List.nil_append, parseStrChars.eq_def]
    simp +decide
  | cons c cs ih =>
    rw [escapeList]
    by_cases h1 : c = '"'
    · subst h1
      rw [show escapeChar '"' = ['\\', '"'] by rfl, List.append_assoc,
        List.cons_append, List.cons_append, parseStrChars.eq_def]
      simp +decide [unescapeChar, ih]
    · by_cases h2 : c = '\\'
      · subst h2
        rw [show escapeChar '\\' = ['\\', '\\'] by rfl, List.append_assoc,
          List.cons_append, List.cons_append, parseStrChars.eq_def]
        simp +decide [unescapeChar, ih]
      · by_cases h3 : c = '\n'
        · subst h3
          rw [show escapeChar '\n' = ['\\', 'n'] by rfl, List.append_assoc,
            List.cons_append, List.cons_append, parseStrChars.eq_def]
          simp +decide [unescapeChar, ih]
        · by_cases h4 : c = '\t'
          · subst h4
            rw [show escapeChar '\t' = ['\\', 't'] by rfl, List.append_assoc,
              List.cons_append, List.cons_append, parseStrChars.eq_def]
            simp +decide [unescapeChar, ih]
          · by_cases h5 : c = '\r'
            · subst h5
              rw [show escapeChar '\r' = ['\\', 'r'] by rfl, List.append_assoc,
                List.cons_append, List.cons_append, parseStrChars.eq_def]
              simp +decide [unescapeChar, ih]
            · rw [show escapeChar c = [c] by
                simp [escapeChar, h1, h2, h3, h4, h5], List.append_assoc,
                List.cons_append, List.nil_append, parseStrChars.eq_def]
              simp [h1, h2, ih]

/-- Parsing a serialized string literal yields the original string value. -/
theorem parseVal_quoteE (f : Nat) (s : String) (rest : List Char) :
    parseVal (f + 1) ('"' :: (escapeList s.data ++ ('"' :: rest))) =
      some (Json.str s, rest) := by
  rw [parseVal.eq_def]
  simp +decide [skipWs, isWsChar, parseStr_escape, strMk_data]

/-- Parsing the serialized field segment of one saved diagram yields its two
string fields. -/
theorem parseFields_diagram (f : Nat) (d : SavedDiagram) (rest : List Char) :
    parseFields (f + 3) (diagramFieldsChars d ++ rest) =
      some ([("name", Json.str d.name), ("code", Json.str d.code)], rest) := by
  have e1 : diagramFieldsChars d ++ rest =
      '"' :: (escapeList "name".data ++ ('"' :: (':' ::
        ('"' :: (escapeList d.name.data ++ ('"' :: (',' ::
        ('"' :: (escapeList "code".data ++ ('"' :: (':' ::
        ('"' :: (escapeList d.code.data ++ ('"' ::
        (rbrace :: rest))))))))))))))) := by
    simp [diagramFieldsChars, quoteChars, List.append_assoc]
  rw [e1, show f + 3 = (f + 2) + 1 from rfl, parseFields.eq_def]
  simp +decide [skipWs, isWsChar, parseStr_escape, strMk_data]
  rw [show f + 2 = (f + 1) + 1 from rfl]
  simp +decide [skipWs, isWsChar, parseVal_quoteE]
  rw [parseFields.eq_def]
  simp +decide [skipWs, isWsChar, parseStr_escape, strMk_data, parseVal_quoteE]

/-- Parsing one serialized saved-diagram object yields its JSON object. -/
theorem parseVal_diagram (f : Nat) (d : SavedDiagram) (rest : List Char) :
    parseVal (f + 4) (encodeDiagramChars d ++ rest) =
      some (diagramJson d, rest) := by
  rw [encodeDiagramChars, List.cons_append,
    show f + 4 = (f + 3) + 1 from rfl, parseVal.eq_def]
  simp +decide [skipWs, isWsChar]
  have h2 : ('"' :: (escapeList ['n', 'a', 'm', 'e'] ++ '"' :: ':' ::
      (quoteChars d.name ++ ',' ::
        (quoteChars "code" ++ ':' :: (quoteChars d.code ++ rbrace :: rest))))) =
      diagramFieldsChars d ++ rest := by
    simp +decide [diagramFieldsChars, quoteChars, List.append_assoc]
  rw [h2, parseFields_diagram]
  simp [diagramJson]

/-- Parsing the serialized element list of a non-empty saved-diagrams array
yields the corresponding JSON objects, given fuel beyond the element count. -/
theorem parseItems_diagrams (l : List SavedDiagram) :
    l ≠ [] → ∀ (f : Nat) (rest : List Char),
    parseItems (f + l.length + 4) (encodeItemsChars l ++ (']' :: rest)) =
      some (l.map diagramJson, rest) := by
  induction l with
  | nil => intro h; exact absurd rfl h
  | cons d ds ih =>
    intro _ f rest
    cases ds with
    | nil =>
      rw [show (([d] : List SavedDiagram)).length = 1 from rfl,
        show f + 1 + 4 = (f + 4) + 1 from rfl,
        show encodeItemsChars [d] = encodeDiagramChars d from rfl,
        parseItems.eq_def]
      simp +decide [parseVal_diagram, skipWs, isWsChar]
    | cons d2 ds2 =>
      have ih' := ih (by simp) f rest
      simp only [List.length_cons] at ih'
      rw [show (d :: d2 :: ds2).length = (d2 :: ds2).length + 1 from rfl,
        show f + ((d2 :: ds2).length + 1) + 4 = (f + (d2 :: ds2).length + 4) + 1
          from rfl,
        show encodeItemsChars (d :: d2 :: ds2) =
          encodeDiagramChars d ++ (',' :: encodeItemsChars (d2 :: ds2)) from rfl,
        List.append_assoc, List.cons_append, parseItems.eq_def]
      simp +decide [parseVal_diagram, skipWs, isWsChar, ih']

/-- A serialized diagram object is at least three characters long. -/
theorem encodeDiagram_length_ge (d : SavedDiagram) :
    3 ≤ (encodeDiagramChars d).length := by
  simp [encodeDiagramChars, diagramFieldsChars, quoteChars, List.length_append]
  omega

/-- A serialized element list is long enough to provide parsing fuel. -/
theorem encodeItems_length_ge (l : List SavedDiagram) (h : l ≠ []) :
    l.length + 2 ≤ (encodeItemsChars l).length := by
  induction l with
  | nil => exact absurd rfl h
  | cons d ds ih =>
    cases ds with
    | nil =>
      rw [show encodeItemsChars [d] = encodeDiagramChars d from rfl]
      have := encodeDiagram_length_ge d
      simp only [List.length_cons, List.length_nil]
      omega
    | cons d2 ds2 =>
      have ih' := ih (by simp)
      simp only [List.length_cons] at ih'
      rw [show encodeItemsChars (d :: d2 :: ds2) =
          encodeDiagramChars d ++ (',' :: encodeItemsChars (d2 :: ds2)) from rfl]
      have := encodeDiagram_length_ge d
      simp only [List.length_append, List.length_cons]
      omega

/-- A non-empty serialized element list starts with an opening brace. -/
theorem encodeItems_head (l : List SavedDiagram) (h : l ≠ []) :
    ∃ t, encodeItemsChars l = lbrace :: t := by
  cases l with
  | nil => exact absurd rfl h
  | cons d ds =>
    cases ds with
    | nil => exact ⟨diagramFieldsChars d, rfl⟩
    | cons d2 ds2 =>
      exact ⟨diagramFieldsChars d ++ (',' :: encodeItemsChars (d2 :: ds2)), rfl⟩

/-- The modelled `JSON.parse` inverts the modelled `JSON.stringify` on every
saved-diagrams sequence. -/
theorem jsonParse_stringifyDiagrams (l : List SavedDiagram) :
    jsonParse (jsonStringifyDiagrams l) = some (diagramsJson l) := by
  cases l with
  | nil => rfl
  | cons d ds =>
    have hne : (d :: ds) ≠ ([] : List SavedDiagram) := by simp
    obtain ⟨t, ht⟩ := encodeItems_head (d :: ds) hne
    have hlen := encodeItems_length_ge (d :: ds) hne
    rw [jsonParse, jsonStringifyDiagrams]
    rw [show (String.mk ('[' :: (encodeItemsChars (d :: ds) ++ [']']))).length
        = (encodeItemsChars (d :: ds)).length + 2 by
      simp [String.length, List.length_append]]
    obtain ⟨g, hg⟩ : ∃ g, (encodeItemsChars (d :: ds)).length + 2 + 1 =
        (g + (d :: ds).length + 4) + 1 := ⟨(encodeItemsChars (d :: ds)).length
          - ((d :: ds).length + 2), by omega⟩
    rw [show (String.mk ('[' :: (encodeItemsChars (d :: ds) ++ [']']))).data
        = '[' :: (encodeItemsChars (d :: ds) ++ [']']) from rfl]
    rw [hg, parseVal.eq_def]
    simp +decide [skipWs, isWsChar]
    rw [ht]
    simp +decide [skipWs, isWsChar, show isWsChar lbrace = false from rfl]
    have happ := parseItems_diagrams (d :: ds) hne g []
    simp only [List.length_cons] at happ
    rw [show (lbrace :: (t ++ [']']) : List Char) = (lbrace :: t) ++ (']' :: [])
        from rfl, ← ht, happ]
    simp [skipWs, diagramsJson]

/-- Decoding one encoded diagram object recovers the diagram. -/
theorem decodeDiagram_diagramJson (d : SavedDiagram) :
    decodeDiagram (diagramJson d) = some d := by
  simp [diagramJson, decodeDiagram]

/-- Decoding an encoded diagram sequence recovers the sequence. -/
theorem decodeDiagrams_diagramsJson (l : List SavedDiagram) :
    decodeDiagrams (diagramsJson l) = some l := by
  induction l with
  | nil => rfl
  | cons d ds ih =>
    simp only [diagramsJson, List.map_cons, decodeDiagrams, decodeDiagramList,
      decodeDiagram_diagramJson]
    simp only [diagramsJson, decodeDiagrams] at ih
    simp [ih]

/-- Serialize-then-deserialize is the identity on saved-diagrams sequences. -/
theorem deserialize_stringify (l : List SavedDiagram) :
    deserializeDiagrams (jsonStringifyDiagrams l) = some l := by
  rw [deserializeDiagrams, jsonParse_stringifyDiagrams]
  simp [decodeDiagrams_diagramsJson]

/-! ### Viewport and splitter lemmas -/

/-- `toggleFullscreen` only issues a host request; the component state, and
with it the fullscreen flag, is untouched. -/
theorem toggle_keeps_state (s : ViewportState) : (toggleFullscreen s).1 = s :=
  rfl

/-- Any burst of toggle requests leaves the viewport state untouched. -/
theorem repeatToggle_keeps_state (n : Nat) (s : ViewportState) :
    repeatToggle n s = s := by
  induction n with
  | zero => rfl
  | succ n ih => rw [repeatToggle, toggle_keeps_state, ih]

/-- Zooming in at the upper bound is a no-op. -/
theorem zoomIn_at_top (s : ViewportState) :
    handleZoomIn { s with zoom := 200 } = { s with zoom := 200 } := by
  simp [handleZoomIn]

/-- Zooming out at the lower bound is a no-op. -/
theorem zoomOut_at_bottom (s : ViewportState) :
    handleZoomOut { s with zoom := 50 } = { s with zoom := 50 } := by
  simp [handleZoomOut]

/-- Repeated zoom-in from the upper bound stays at the upper bound. -/
theorem repeatZoomIn_at_top (n : Nat) (s : ViewportState) :
    repeatZoomIn n { s with zoom := 200 } = { s with zoom := 200 } := by
  induction n with
  | zero => rfl
  | succ n ih => rw [repeatZoomIn, zoomIn_at_top, ih]

/-- Repeated zoom-out from the lower bound stays at the lower bound. -/
theorem repeatZoomOut_at_bottom (n : Nat) (s : ViewportState) :
    repeatZoomOut n { s with zoom := 50 } = { s with zoom := 50 } := by
  induction n with
  | zero => rfl
  | succ n ih => rw [repeatZoomOut, zoomOut_at_bottom, ih]

/-! ### Index-filter deletion equals index erasure -/

/-- Enumerated pairs project back to the list. -/
theorem enumFrom_map_snd {α : Type} (l : List α) :
    ∀ n : Nat, (List.enumFrom n l).map Prod.snd = l := by
  induction l with
  | nil => intro n; rfl
  | cons a l ih => intro n; simp [List.enumFrom, ih]

/-- Filtering out an index below the enumeration start keeps everything. -/
theorem enumFrom_filter_all {α : Type} (l : List α) (m j : Nat) (hj : j < m) :
    (List.enumFrom m l).filter (fun p => decide (p.1 ≠ j)) =
      List.enumFrom m l := by
  rw [List.filter_eq_self]
  intro p hp
  obtain ⟨i, x⟩ := p
  have h1 := (List.mk_mem_enumFrom_iff_le_and_getElem?_sub.mp hp).1
  simp only [decide_eq_true_eq]
  omega

/-- Dropping the pair at offset `idx` of an enumeration-from-`n` and
projecting back erases exactly the element at index `idx`. -/
theorem enumFrom_filter_eraseIdx {α : Type} (l : List α) :
    ∀ (n idx : Nat),
      ((List.enumFrom n l).filter (fun p => decide (p.1 ≠ idx + n))).map
        Prod.snd = l.eraseIdx idx := by
  induction l with
  | nil => intro n idx; simp [List.eraseIdx]
  | cons a l ih =>
    intro n idx
    cases idx with
    | zero =>
      rw [List.enumFrom]
      simp only [Nat.zero_add]
      have hall := enumFrom_filter_all l (n + 1) n (by omega)
      simp only [ne_eq, decide_not] at hall ⊢
      simp [hall, enumFrom_map_snd]
    | succ k =>
      rw [List.enumFrom]
      simp only [show k + 1 + n = k + (n + 1) by omega]
      have hih := ih (n + 1) k
      simp only [ne_eq, decide_not] at hih ⊢
      simp [show n ≠ k + (n + 1) by omega, hih]

/-- The `filter((_, i) => i !== index)` deletion removes exactly the element
at the given index. -/
theorem deleteDiagram_erase (st : SaveState) (idx : Nat) :
    (deleteDiagram st true idx).savedDiagrams =
      st.savedDiagrams.eraseIdx idx := by
  simp only [deleteDiagram, if_true]
  rw [show st.savedDiagrams.enum = List.enumFrom 0 st.savedDiagrams from rfl]
  have h := enumFrom_filter_eraseIdx st.savedDiagrams 0 idx
  simpa using h

/-! ### Concrete event traces -/

/-- First submission of the stale-overwrite trace: text A is submitted and
its debounce fires, starting render id 0 (still awaited). -/
def staleTrace1 : SessionState :=
  fireTimer (setCode initialSession "graph TD\nA-->B")

/-- Second submission: text B is submitted before render 0 resolves and its
debounce fires, starting render id 1; renders 0 and 1 now overlap. -/
def staleTrace2 : SessionState :=
  fireTimer (setCode staleTrace1 "graph TD\nX-->Y")

/-- The newer render (id 1, for text B) resolves first and its artifact is
displayed. -/
def staleTrace3 : SessionState :=
  completeRender staleTrace2 1 (RenderOutcome.success "svg-newer")

/-- The superseded render (id 0, for text A) resolves last and its artifact
overwrites the newer one — nothing in `renderDiagram` discards it. -/
def staleTrace4 : SessionState :=
  completeRender staleTrace3 0 (RenderOutcome.success "svg-stale")

/-- Submitting invalid source and letting the render fail: the renderer
rejects and the error message is displayed (diagram div unmounted). -/
def errTrace1 : SessionState :=
  completeRender (fireTimer (setCode initialSession "graph TD\nA--")) 0
    (RenderOutcome.failure "Parse error on line 2")

/-- Recovery attempt: valid source is submitted from the error state and the
debounce fires; the callback runs but `diagramRef.current` is null (the error
branch is displayed), so it returns at the guard. -/
def errTrace2 : SessionState :=
  fireTimer (setCode errTrace1 "graph TD\nA-->B")

/-! ### Claim theorems -/

/-- C1: for every burst of edits faster than the debounce window, each edit
cancels and replaces the pending schedule, so during the burst no callback
runs and exactly one armed timeout remains, carrying the last-submitted text
and last-selected theme; when it fires, exactly one `renderDiagram`
invocation executes, with that text and theme, and nothing stays scheduled. -/
theorem debounced_edits_single_invocation (s : SessionState)
    (es : List EditEvent) (h : es ≠ []) :
    (applyEdits s es).invocations = s.invocations ∧
    (applyEdits s es).timer =
      some (lastCodeAfter s.code es, lastThemeAfter s.mermaidTheme es) ∧
    (fireTimer (applyEdits s es)).invocations =
      s.invocations ++
        [(lastCodeAfter s.code es, lastThemeAfter s.mermaidTheme es)] ∧
    (fireTimer (applyEdits s es)).timer = none := by
  have hf := applyEdits_frame es s
  have htm := applyEdits_timer es s h
  have hfire := fireTimer_of_timer (applyEdits s es) _ _ htm
  exact ⟨hf.1, htm, by rw [hfire.1, hf.1], hfire.2⟩

/-- C1 witness: two rapid edits from the initial session produce exactly one
invocation, with the last-submitted text under the default theme. -/
theorem debounced_edits_single_invocation_witness :
    (([EditEvent.editCode "graph LR", EditEvent.editCode "graph TD"] :
      List EditEvent) ≠ []) ∧
    (fireTimer (applyEdits initialSession
        [EditEvent.editCode "graph LR",
         EditEvent.editCode "graph TD"])).invocations =
      [("graph TD", MermaidTheme.default)] := by
  refine ⟨by decide, ?_⟩
  rw [(debounced_edits_single_invocation initialSession
    [EditEvent.editCode "graph LR", EditEvent.editCode "graph TD"]
    (by decide)).2.2.1]
  decide

/-- C2 counterexample: with two overlapping in-flight renders, the superseded
render's artifact is applied over the newer one: after the trace the newer
artifact was displayed and then overwritten by the stale one, although the
invocation log shows text B was the most recent submission. -/
theorem stale_render_overwrites_newer :
    staleTrace2.inFlight =
      [(0, "graph TD\nA-->B", MermaidTheme.default),
       (1, "graph TD\nX-->Y", MermaidTheme.default)] ∧
    staleTrace3.displayed = some "svg-newer" ∧
    staleTrace4.displayed = some "svg-stale" ∧
    staleTrace4.invocations =
      [("graph TD\nA-->B", MermaidTheme.default),
       ("graph TD\nX-->Y", MermaidTheme.default)] := by
  decide

/-- C2 (amended): when no render is in flight at the moment the debounce
fires — renders never overlap — the single started render is the
most-recently-submitted (text, theme), and delivering its outcome applies
exactly that result: the artifact on success, the message on failure. -/
theorem nonoverlapping_renders_apply_latest (s : SessionState)
    (es : List EditEvent) (hes : es ≠ []) (hin : s.inFlight = [])
    (herr : s.error = "") (hc : jsTrim (lastCodeAfter s.code es) ≠ "") :
    (fireTimer (applyEdits s es)).inFlight =
      [(s.idCounter, lastCodeAfter s.code es,
        lastThemeAfter s.mermaidTheme es)] ∧
    (∀ svg,
      (completeRender (fireTimer (applyEdits s es)) s.idCounter
        (RenderOutcome.success svg)).displayed = some svg ∧
      (completeRender (fireTimer (applyEdits s es)) s.idCounter
        (RenderOutcome.success svg)).error = "" ∧
      (completeRender (fireTimer (applyEdits s es)) s.idCounter
        (RenderOutcome.success svg)).inFlight = []) ∧
    (∀ msg, msg ≠ "" →
      (completeRender (fireTimer (applyEdits s es)) s.idCounter
        (RenderOutcome.failure msg)).error = msg ∧
      (completeRender (fireTimer (applyEdits s es)) s.idCounter
        (RenderOutcome.failure msg)).displayed = none) := by
  have hf := applyEdits_frame es s
  have htm := applyEdits_timer es s hes
  have hstart := fireTimer_starts_render (applyEdits s es) _ _ htm
    (hf.2.1.trans herr) hc
  rw [hstart]
  refine ⟨by simp [hf.2.2.2.1, hin, hf.2.2.2.2], fun svg => ?_,
    fun msg hm => ?_⟩
  · simp [completeRender, applyOutcome, hf.2.2.2.1, hin, hf.2.2.2.2]
  · simp [completeRender, applyOutcome, hf.2.2.2.1, hin, hf.2.2.2.2, hm]

/-- C2 amended witness: from the idle initial session, one submission puts
exactly the submitted pair in flight under id 0. -/
theorem nonoverlapping_renders_apply_latest_witness :
    initialSession.inFlight = [] ∧
    (fireTimer (applyEdits initialSession
        [EditEvent.editCode "graph TD"])).inFlight =
      [(0, "graph TD", MermaidTheme.default)] := by
  refine ⟨rfl, ?_⟩
  rw [(nonoverlapping_renders_apply_latest initialSession
    [EditEvent.editCode "graph TD"] (by decide) rfl rfl (by decide)).1]
  decide

/-- C3: the recovery scenario fails on the code.  From a displayed error,
submitting the valid source `graph TD\nA-->B` and letting the debounce fire
produces no render at all: the callback runs (it is logged) but returns at
the `!diagramRef.current` guard because the diagram div is unmounted while
the error branch is displayed, so no render starts (`inFlight` stays empty,
the id counter stays 1) and the error message persists instead of being
replaced by a Success result. -/
theorem error_state_blocks_recovery :
    errTrace1.error = "Parse error on line 2" ∧
    errTrace1.displayed = none ∧
    errTrace2.error = "Parse error on line 2" ∧
    errTrace2.inFlight = [] ∧
    errTrace2.idCounter = 1 ∧
    errTrace2.displayed = none ∧
    errTrace2.invocations =
      [("graph TD\nA--", MermaidTheme.default),
       ("graph TD\nA-->B", MermaidTheme.default)] := by
  decide

/-- C4: when the fired callback's captured code is empty or whitespace-only,
no render is attempted (no in-flight render is added, the id counter does not
move) and the current render result — both the error message and the
displayed artifact — is left unchanged. -/
theorem whitespace_submission_no_render (s : SessionState) (c : String)
    (th : MermaidTheme) (ht : s.timer = some (c, th))
    (hw : ∀ ch ∈ c.data, ch.isWhitespace) :
    (fireTimer s).error = s.error ∧ (fireTimer s).displayed = s.displayed ∧
    (fireTimer s).inFlight = s.inFlight ∧
    (fireTimer s).idCounter = s.idCounter ∧ (fireTimer s).timer = none := by
  have hc : jsTrim c = "" := jsTrim_all_ws c hw
  simp only [fireTimer, ht, hc]
  split <;> simp

/-- C4 witness: a whitespace-only submission from the initial session leaves
the render result and counters untouched. -/
theorem whitespace_submission_no_render_witness :
    ({ initialSession with
        timer := some ("  \n ", MermaidTheme.default) } : SessionState).timer =
      some ("  \n ", MermaidTheme.default) ∧
    (∀ ch ∈ ("  \n " : String).data, ch.isWhitespace) ∧
    (fireTimer { initialSession with
        timer := some ("  \n ", MermaidTheme.default) }).idCounter = 0 := by
  refine ⟨rfl, by decide, ?_⟩
  rw [(whitespace_submission_no_render
    { initialSession with timer := some ("  \n ", MermaidTheme.default) }
    "  \n " MermaidTheme.default rfl (by decide)).2.2.2.1]
  decide

/-- C5: saving with a non-empty name appends exactly the `{name, code}` pair
and synchronously overwrites the store with the serialization of the whole
new sequence, and deleting at an index removes exactly that element and
synchronously overwrites the store likewise; in both cases deserializing the
store yields exactly the in-memory sequence. -/
theorem save_delete_store_sync (st : SaveState) (nm code : String)
    (hnm : nm ≠ "") :
    (saveDiagram st (some nm) code).savedDiagrams =
      st.savedDiagrams ++ [{ name := nm, code := code }] ∧
    (saveDiagram st (some nm) code).store =
      some (jsonStringifyDiagrams
        (st.savedDiagrams ++ [{ name := nm, code := code }])) ∧
    ((saveDiagram st (some nm) code).store.bind deserializeDiagrams) =
      some ((saveDiagram st (some nm) code).savedDiagrams) ∧
    (∀ (st2 : SaveState) (idx : Nat),
      (deleteDiagram st2 true idx).savedDiagrams =
        st2.savedDiagrams.eraseIdx idx ∧
      (deleteDiagram st2 true idx).store =
        some (jsonStringifyDiagrams
          ((deleteDiagram st2 true idx).savedDiagrams)) ∧
      ((deleteDiagram st2 true idx).store.bind deserializeDiagrams) =
        some ((deleteDiagram st2 true idx).savedDiagrams)) := by
  have hsave : saveDiagram st (some nm) code =
      { savedDiagrams := st.savedDiagrams ++ [{ name := nm, code := code }]
        store := some (jsonStringifyDiagrams
          (st.savedDiagrams ++ [{ name := nm, code := code }])) } := by
    simp [saveDiagram, hnm]
  refine ⟨by rw [hsave], by rw [hsave], ?_, fun st2 idx => ?_⟩
  · rw [hsave]
    simp [Option.bind, deserialize_stringify]
  · refine ⟨deleteDiagram_erase st2 idx, rfl, ?_⟩
    simp only [deleteDiagram, if_true]
    simp [Option.bind, deserialize_stringify]

/-- C5 witness: saving `{name:"A", code:"graph TD;A-->B"}` into an empty
store and deserializing the store yields exactly that one-element sequence;
deleting it empties the sequence and the store tracks it. -/
theorem save_delete_store_sync_witness :
    (("A" : String) ≠ "") ∧
    ((saveDiagram ⟨[], none⟩ (some "A") "graph TD;A-->B").store.bind
      deserializeDiagrams) =
      some [{ name := "A", code := "graph TD;A-->B" }] ∧
    (deleteDiagram (saveDiagram ⟨[], none⟩ (some "A") "graph TD;A-->B")
      true 0).savedDiagrams = [] := by
  refine ⟨by decide, ?_, ?_⟩
  · rw [(save_delete_store_sync ⟨[], none⟩ "A" "graph TD;A-->B"
      (by decide)).2.2.1]
    rfl
  · rw [((save_delete_store_sync ⟨[], none⟩ "A" "graph TD;A-->B"
      (by decide)).2.2.2 (saveDiagram ⟨[], none⟩ (some "A") "graph TD;A-->B")
      0).1]
    rfl

/-- C6: the load effect does not treat every malformed blob as "no saved
diagrams".  The blob `"hello"` (seven characters, quotes included) is not a
serialized diagram sequence, yet `JSON.parse` accepts it and the effect
stores the resulting string value unvalidated — not the empty sequence the
claim requires (the sidebar then calls `.map` on it and throws).  Only a
missing slot, an empty blob or a JSON syntax error yield the empty
sequence. -/
theorem malformed_blob_loaded_unvalidated :
    loadSavedDiagrams (some "\"hello\"") = Json.str "hello" ∧
    decodeDiagrams (Json.str "hello") = none ∧
    Json.str "hello" ≠ Json.arr [] ∧
    loadSavedDiagrams none = Json.arr [] ∧
    loadSavedDiagrams (some "\x7boops") = Json.arr [] := by
  refine ⟨rfl, rfl, ?_, rfl, rfl⟩
  intro h
  exact Json.noConfusion h

/-- C7: zoom steps add or subtract 10 and clamp to [50, 200]: inside the
range a step moves by exactly 10, repeated stepping at either bound is a
no-op, and the result always stays within the bounds. -/
theorem zoom_clamped_steps (s : ViewportState) (h1 : 50 ≤ s.zoom)
    (h2 : s.zoom ≤ 200) :
    (handleZoomIn s).zoom = min (s.zoom + 10) 200 ∧
    (handleZoomOut s).zoom = max (s.zoom - 10) 50 ∧
    (s.zoom + 10 ≤ 200 → (handleZoomIn s).zoom = s.zoom + 10) ∧
    (50 ≤ s.zoom - 10 → (handleZoomOut s).zoom = s.zoom - 10) ∧
    (∀ n, (repeatZoomOut n { s with zoom := 50 }).zoom = 50) ∧
    (∀ n, (repeatZoomIn n { s with zoom := 200 }).zoom = 200) ∧
    50 ≤ (handleZoomIn s).zoom ∧ (handleZoomIn s).zoom ≤ 200 ∧
    50 ≤ (handleZoomOut s).zoom ∧ (handleZoomOut s).zoom ≤ 200 := by
  refine ⟨rfl, rfl, ?_, ?_, ?_, ?_, ?_, ?_, ?_, ?_⟩
  · intro h; show min (s.zoom + 10) 200 = s.zoom + 10; omega
  · intro h; show max (s.zoom - 10) 50 = s.zoom - 10; omega
  · intro n; rw [repeatZoomOut_at_bottom]
  · intro n; rw [repeatZoomIn_at_top]
  · show (50 : Int) ≤ min (s.zoom + 10) 200; omega
  · show min (s.zoom + 10) 200 ≤ (200 : Int); omega
  · show (50 : Int) ≤ max (s.zoom - 10) 50; omega
  · show max (s.zoom - 10) 50 ≤ (200 : Int); omega

/-- C7 witness: at 100 percent, zooming in lands exactly on 110. -/
theorem zoom_clamped_steps_witness :
    ((50 : Int) ≤ 100 ∧ (100 : Int) ≤ 200) ∧
    (handleZoomIn ⟨100, false⟩).zoom = 110 := by
  refine ⟨⟨by decide, by decide⟩, ?_⟩
  rw [(zoom_clamped_steps ⟨100, false⟩ (by decide) (by decide)).1]
  decide

/-- C8: while a resize is in progress, a pointer move stores exactly the
clamped percentage `min (max ((x - left) / width * 100) 20) 80`; the stored
width is always within [20, 80], and pointer positions implying 5 or 95
percent store 20 and 80 respectively.  The positive-width hypothesis
restricts the statement to genuine bounding boxes: for a zero-width box
JavaScript division yields Infinity or NaN, which the rational model does
not represent. -/
theorem resize_tracks_and_clamps (s : SplitState) (x l w : ℚ)
    (hres : s.isResizing = true) (hw : 0 < w) :
    (handleMouseMove s x l w).editorWidth =
      min (max ((x - l) / w * 100) 20) 80 ∧
    20 ≤ (handleMouseMove s x l w).editorWidth ∧
    (handleMouseMove s x l w).editorWidth ≤ 80 ∧
    ((x - l) / w * 100 = 5 → (handleMouseMove s x l w).editorWidth = 20) ∧
    ((x - l) / w * 100 = 95 → (handleMouseMove s x l w).editorWidth = 80) := by
  have hmm : handleMouseMove s x l w =
      { s with editorWidth := min (max ((x - l) / w * 100) 20) 80 } := by
    simp only [handleMouseMove, hres, if_true]
  rw [hmm]
  refine ⟨rfl, ?_, ?_, ?_, ?_⟩
  · exact le_min (le_max_right _ _) (by norm_num)
  · exact min_le_right _ _
  · intro h5; rw [h5]; norm_num
  · intro h95; rw [h95]; norm_num

/-- C8 witness: during a drag over a container of width 100 starting at 0, a
pointer at 5 (implying 5 percent) stores width 20. -/
theorem resize_tracks_and_clamps_witness :
    ((⟨50, true⟩ : SplitState)).isResizing = true ∧
    (handleMouseMove ⟨50, true⟩ 5 0 100).editorWidth = 20 := by
  constructor
  · rfl
  · exact (resize_tracks_and_clamps ⟨50, true⟩ 5 0 100 rfl
      (by norm_num)).2.2.2.1 (by norm_num)

/-- C9: toggle requests never mutate the fullscreen flag — the whole viewport
state is returned unchanged, for any number of consecutive requests — and the
flag is set only by the host's fullscreen-change notification, to the host's
current fullscreen status. -/
theorem fullscreen_flag_only_external (s : ViewportState) (b : Bool)
    (n : Nat) :
    (toggleFullscreen s).1.isFullscreen = s.isFullscreen ∧
    (repeatToggle n s).isFullscreen = s.isFullscreen ∧
    (handleFullscreenChange s b).isFullscreen = b :=
  ⟨rfl, by rw [repeatToggle_keeps_state], rfl⟩

/-- C10: saving with a cancelled prompt or an empty name leaves both the
in-memory sequence and the store completely unchanged. -/
theorem save_without_name_noop (st : SaveState) (code : String) :
    saveDiagram st none code = st ∧ saveDiagram st (some "") code = st :=
  ⟨rfl, rfl⟩
